import Mathlib

/-!
Verification of the yamlenv configuration loader (pkg/yamlenv/yamlenv.go).

The development shallowly embeds the Go source: reflective struct values
become the inductive `GoValue`/`GoFields`, environment access becomes an
explicit lookup function `String -> Option String` (os.LookupEnv), the
YAML decoder (gopkg.in/yaml.v3, out of scope of the repository) is an
abstract parameter, and time.ParseDuration (Go standard library) is an
abstract parameter as well.  Machine integers are modelled as Int/Nat with
explicit two's-complement truncation where Go's reflect.Value.SetInt /
SetUint convert a 64-bit parse result to a narrower field width.

Naming notes: Go identifiers are kept where possible.  The LoaderOptions
fields EnvPrefix and Delimiter are called `envPre` and `delim` here; the
per-field loop body of applyEnvOverrides is factored as `walkFields`.
Float32/Float64 fields carry their float64 value opaquely, as an
abstract code (say an IEEE-754 bit pattern): strconv.ParseFloat at
bitSize 64 and the float64-to-float32 narrowing reflect SetFloat
performs on a Float32 field are the abstract FloatOps parameter,
treated the same way as time.ParseDuration.
String helpers mirror ASCII behaviour of strings.ToUpper / ToLower /
ReplaceAll; all identifiers appearing in configuration structs are ASCII.
-/

namespace Yamlenv

/-- ASCII uppercase of a string, as strings.ToUpper on ASCII input. -/
def goToUpper (s : String) : String := ⟨s.data.map Char.toUpper⟩

/-- ASCII lowercase of a string, as strings.ToLower on ASCII input. -/
def goToLower (s : String) : String := ⟨s.data.map Char.toLower⟩

/-- strings.ReplaceAll specialised to a single-character pattern: every
call site of the source passes "." or "-", for which Go's leftmost
non-overlapping replacement is exactly per-character substitution.  The
fallback arm for other patterns is unreachable from this development. -/
def replaceAll (s pat rep : String) : String :=
  match pat.data with
  | [p] => ⟨s.data.foldr (fun c acc => if c = p then rep.data ++ acc else c :: acc) []⟩
  | _ => s

mutual
/-- Field values as seen by the reflective walker.  Mirrors the reflect.Kind
dispatch of the source: strings, signed integers (with bit width, Go `int`
being 64-bit), unsigned integers, floating point (the float64 value
carried as an opaque code), booleans, time.Duration (an int64
nanosecond count with its own parsing rule), nested structs, pointers
(carrying the printed Go type name used in the unsupported-type error), and
any other unsupported kind. -/
inductive GoValue where
  | strV (s : String)
  | intV (w : Nat) (v : Int)
  | uintV (w : Nat) (v : Nat)
  | floatV (w : Nat) (v : Nat)
  | boolV (b : Bool)
  | durationV (ns : Int)
  | structV (fields : GoFields)
  | ptrV (typeName : String) (pointee : GoValue)
  | otherV (typeName : String)

/-- The field list of a struct: Go field name, IsExported flag, raw yaml
struct tag (the string reflect's Tag.Get "yaml" returns, "" when absent),
and the field's value. -/
inductive GoFields where
  | nil
  | cons (name : String) (exported : Bool) (tag : String) (v : GoValue) (rest : GoFields)
end

/-- Printed type name used in the unsupported-field-type error message
(field.Type() in the source); only pointer and other kinds ever reach it. -/
def GoValue.typeName : GoValue → String
  | .strV _ => "string"
  | .intV _ _ => "int"
  | .uintV _ _ => "uint"
  | .floatV _ _ => "float64"
  | .boolV _ => "bool"
  | .durationV _ => "time.Duration"
  | .structV _ => "struct"
  | .ptrV tn _ => tn
  | .otherV tn => tn

/-- Go strconv.ParseBool: the exact accepted token set. -/
def goParseBool (s : String) : Option Bool :=
  if s = "1" ∨ s = "t" ∨ s = "T" ∨ s = "TRUE" ∨ s = "true" ∨ s = "True" then some true
  else if s = "0" ∨ s = "f" ∨ s = "F" ∨ s = "FALSE" ∨ s = "false" ∨ s = "False" then
    some false
  else none

/-- Decimal digit run: all characters are digits and the run is nonempty. -/
def decDigits? (cs : List Char) : Option Nat :=
  if cs ≠ [] ∧ cs.all Char.isDigit then
    some (cs.foldl (fun a c => a * 10 + (c.toNat - 48)) 0)
  else none

/-- Go strconv.ParseInt(s, 10, 64): optional single leading sign, decimal
digits, range-checked against int64. -/
def goParseInt64 (s : String) : Option Int :=
  match s.data with
  | [] => none
  | c :: cs =>
    let signDigits : Bool × List Char :=
      if c = '-' then (true, cs) else if c = '+' then (false, cs) else (false, c :: cs)
    match decDigits? signDigits.2 with
    | none => none
    | some n =>
      if signDigits.1 then
        if n ≤ 2 ^ 63 then some (-(n : Int)) else none
      else
        if n < 2 ^ 63 then some ((n : Int)) else none

/-- Go strconv.ParseUint(s, 10, 64): no sign permitted, decimal digits,
range-checked against uint64. -/
def goParseUint64 (s : String) : Option Nat :=
  match decDigits? s.data with
  | some n => if n < 2 ^ 64 then some n else none
  | none => none

/-- Two's-complement truncation of an int64 parse result to a field of
width `w` bits, as reflect.Value.SetInt's conversion performs. -/
def truncInt (w : Nat) (v : Int) : Int :=
  Int.emod (v + 2 ^ (w - 1)) (2 ^ w) - 2 ^ (w - 1)

/-- Truncation of a uint64 parse result to width `w`, as SetUint performs. -/
def truncUint (w : Nat) (n : Nat) : Nat := n % 2 ^ w

/-- Errors produced by setFieldValue, one per fmt.Errorf format string. -/
inductive FieldErr where
  | parseDurationErr (value : String)
  | parseIntErr (value : String)
  | parseUintErr (value : String)
  | parseFloatErr (value : String)
  | parseBoolErr (value : String)
  | unsupportedType (typeName : String)

/-- The walker's error wrapping: fmt.Errorf("set field %s: %w", fieldPath, err). -/
inductive WalkErr where
  | setField (fieldPath : String) (e : FieldErr)

/-- Abstract floating-point operations of the Go standard library,
treated like time.ParseDuration: `parseFloat` is
strconv.ParseFloat(value, 64), with none covering both malformed input
and the out-of-range error, and `toFloat32` is the float64-to-float32
conversion reflect SetFloat performs on a Float32 field.  Float values
are carried opaquely; the walker never inspects them. -/
structure FloatOps where
  parseFloat : String → Option Nat
  toFloat32 : Nat → Nat

/-- setFieldValue of the source.  The CanSet guard of the source is omitted:
the walker only reaches exported fields of the addressable target struct,
which are always settable.  Duration parsing (time.ParseDuration, Go
standard library) is the abstract parameter `pd`. -/
def setFieldValue (pd : String → Option Int) (fo : FloatOps)
    (field : GoValue) (value : String) :
    Except FieldErr GoValue :=
  match field with
  | .strV _ => .ok (.strV value)
  | .durationV _ =>
    match pd value with
    | some d => .ok (.durationV d)
    | none => .error (.parseDurationErr value)
  | .intV w _ =>
    match goParseInt64 value with
    | some n => .ok (.intV w (truncInt w n))
    | none => .error (.parseIntErr value)
  | .uintV w _ =>
    match goParseUint64 value with
    | some n => .ok (.uintV w (truncUint w n))
    | none => .error (.parseUintErr value)
  | .floatV w _ =>
    match fo.parseFloat value with
    | some x => .ok (.floatV w (if w = 32 then fo.toFloat32 x else x))
    | none => .error (.parseFloatErr value)
  | .boolV _ =>
    match goParseBool value with
    | some b => .ok (.boolV b)
    | none => .error (.parseBoolErr value)
  | v => .error (.unsupportedType v.typeName)

/-- getStructPath of the source: yaml tag (already stripped of options)
when present and not "-", else the lowercased field name. -/
def getStructPath (fieldName tag : String) : String :=
  if tag ≠ "" ∧ tag ≠ "-" then tag else goToLower fieldName

/-- Removal of tag options: strings.Index(tag, ",") prefix-taking. -/
def stripTagOptions (tag : String) : String :=
  ⟨tag.data.takeWhile (fun c => c ≠ ',')⟩

/-- Path extension at a field: fieldPath = path + "." + seg when the
accumulated path is nonempty (source lines 175-177). -/
def extendPath (path seg : String) : String :=
  if path ≠ "" then path ++ "." ++ seg else seg

/-- findEnvValue of the source: uppercase the dotted path, replace dots by
the delimiter when the delimiter is nonempty, optionally turn dashes into
underscores, prepend the prefix verbatim, and look the key up. -/
def findEnvValue (env : String → Option String) ( envPre delim path : String)
    (normalizeDash : Bool) : Option String :=
  let envPath := goToUpper path
  let envPath := if delim ≠ "" then replaceAll envPath "." delim else envPath
  let envPath := if normalizeDash then replaceAll envPath "-" "_" else envPath
  env ( envPre ++ envPath)

/-- The field loop of applyEnvOverrides (source lines 156-195): skip
unexported fields and fields tagged "-", recurse into struct-kind fields,
and for every other field look up the derived environment key and, on a
hit, set the field; the first error aborts the walk.  DebugKeys printing
is output-only and not modelled. -/
def walkFields (env : String → Option String) (pd : String → Option Int) (fo : FloatOps)
    ( envPre delim : String) (nd : Bool) : String → GoFields → Except WalkErr GoFields
  | _, .nil => .ok .nil
  | path, .cons name exported tag v rest =>
    if exported = false then
      match walkFields env pd fo envPre delim nd path rest with
      | .ok rest' => .ok (.cons name exported tag v rest')
      | .error e => .error e
    else if tag = "-" then
      match walkFields env pd fo envPre delim nd path rest with
      | .ok rest' => .ok (.cons name exported tag v rest')
      | .error e => .error e
    else
      let fieldPath := extendPath path (getStructPath name (stripTagOptions tag))
      match v with
      | .structV inner =>
        match walkFields env pd fo envPre delim nd fieldPath inner with
        | .error e => .error e
        | .ok inner' =>
          match walkFields env pd fo envPre delim nd path rest with
          | .ok rest' => .ok (.cons name exported tag (.structV inner') rest')
          | .error e => .error e
      | v =>
        match findEnvValue env envPre delim fieldPath nd with
        | some envValue =>
          match setFieldValue pd fo v envValue with
          | .error err => .error (.setField fieldPath err)
          | .ok v' =>
            match walkFields env pd fo envPre delim nd path rest with
            | .ok rest' => .ok (.cons name exported tag v' rest')
            | .error e => .error e
        | none =>
          match walkFields env pd fo envPre delim nd path rest with
          | .ok rest' => .ok (.cons name exported tag v rest')
          | .error e => .error e

/-- applyEnvOverrides of the source: dereference a pointer once, do nothing
on a non-struct value, walk the fields of a struct. -/
def applyEnvOverrides (env : String → Option String) (pd : String → Option Int) (fo : FloatOps)
    ( envPre delim : String) (nd : Bool) (path : String) (val : GoValue) :
    Except WalkErr GoValue :=
  match val with
  | .ptrV tn (.structV fs) =>
    match walkFields env pd fo envPre delim nd path fs with
    | .ok fs' => .ok (.ptrV tn (.structV fs'))
    | .error e => .error e
  | .structV fs =>
    match walkFields env pd fo envPre delim nd path fs with
    | .ok fs' => .ok (.structV fs')
    | .error e => .error e
  | v => .ok v

/-- Outcome of invoking a ConfigSource and reading it: the source's open
call fails (os.Open on a missing path, fs.FS Open, ...), the io.ReadAll
fails, or the full byte content is produced.  The byte content is kept as
a String. -/
inductive SourceOutcome where
  | openFail (cause : String)
  | readFail (cause : String)
  | bytes (data : String)

/-- The opts.Target value as reflect sees it: Go nil, a non-pointer, or a
pointer with its pointee (the pointee must be struct-kind to pass
validation; a nil typed pointer dereferences to an invalid kind and is
covered by a non-struct pointee). -/
inductive TargetRef where
  | nilRef
  | nonPtr
  | ptr (pointee : GoValue)

/-- LoaderOptions of the source.  `envPre` is the EnvPrefix field and
`delim` the Delimiter field. -/
structure LoaderOptions where
  baseSource : Option SourceOutcome
  localSource : Option SourceOutcome
  envPre : String
  delim : String
  target : TargetRef
  normalizeDash : Bool
  forceLowerYAML : Bool
  debugKeys : Bool

/-- Errors of loadYAMLFromSource: open failure, read failure, or a
yaml.Unmarshal failure, each wrapping the cause. -/
inductive SrcErr where
  | openErr (cause : String)
  | readErr (cause : String)
  | decodeErr (cause : String)

/-- Errors of LoadConfig, one per return fmt.Errorf site: the three
validation errors (configuration errors), the nil-BaseSource error, the
wrapped base and local document errors, and the wrapped walker error. -/
inductive LoadErr where
  | delimiterEmpty
  | nilTarget
  | notPtrStruct
  | nilBase
  | loadBaseErr (e : SrcErr)
  | loadLocalErr (e : SrcErr)
  | applyEnvErr (e : WalkErr)

/-- Validation errors are the configuration-error kind of the spec. -/
def LoadErr.isConfigErr : LoadErr → Bool
  | .delimiterEmpty => true
  | .nilTarget => true
  | .notPtrStruct => true
  | .nilBase => true
  | _ => false

/-- loadYAMLFromSource of the source: obtain the reader, read all bytes,
unmarshal onto the target.  The YAML decoder is the abstract parameter
`unmarshal`; it receives the byte content and the current pointee and
returns the updated pointee or a decode error. -/
def loadYAMLFromSource (unmarshal : String → GoValue → Except String GoValue)
    (source : SourceOutcome) (target : GoValue) : Except SrcErr GoValue :=
  match source with
  | .openFail c => .error (.openErr c)
  | .readFail c => .error (.readErr c)
  | .bytes data =>
    match unmarshal data target with
    | .ok t => .ok t
    | .error m => .error (.decodeErr m)

/-- Steps 1 and 2 of LoadConfig: the mandatory base document load followed
by the optional local document load, with their respective error
wrappings ("load base config" / "load local config"). -/
def afterDocs (unmarshal : String → GoValue → Except String GoValue)
    (baseSrc : SourceOutcome) (localOpt : Option SourceOutcome) (t0 : GoValue) :
    Except LoadErr GoValue :=
  match loadYAMLFromSource unmarshal baseSrc t0 with
  | .error e => .error (.loadBaseErr e)
  | .ok t1 =>
    match localOpt with
    | none => .ok t1
    | some localSrc =>
      match loadYAMLFromSource unmarshal localSrc t1 with
      | .error e => .error (.loadLocalErr e)
      | .ok t2 => .ok t2

/-- Dereference of a reflect pointer value (Value.Elem). -/
def GoValue.deref : GoValue → GoValue
  | .ptrV _ p => p
  | v => v

/-- Step 3 of LoadConfig: applyEnvOverrides on the target pointer (the
walker receives targetValue, a pointer), wrapping walker errors as
"apply env overrides"; on success the final pointee is the result. -/
def applyEnvStep (env : String → Option String) (pd : String → Option Int) (fo : FloatOps)
    ( envPre delim : String) (nd : Bool) (t : GoValue) : Except LoadErr GoValue :=
  match applyEnvOverrides env pd fo envPre delim nd "" (.ptrV "" t) with
  | .error e => .error (.applyEnvErr e)
  | .ok r => .ok (GoValue.deref r)

/-- LoadConfig of the source: validate delimiter/prefix, target shape and
base source, then load the base document, the optional local document,
and apply environment overrides.  The YAML decoder, duration parser and
environment are the abstract parameters; the result is the final pointee
of the target. -/
def LoadConfig (unmarshal : String → GoValue → Except String GoValue)
    (pd : String → Option Int) (fo : FloatOps) (env : String → Option String)
    (opts : LoaderOptions) : Except LoadErr GoValue :=
  if opts.envPre ≠ "" ∧ opts.delim = "" then .error .delimiterEmpty
  else
    match opts.target with
    | .nilRef => .error .nilTarget
    | .nonPtr => .error .notPtrStruct
    | .ptr pointee =>
      match pointee with
      | .structV _ =>
        match opts.baseSource with
        | none => .error .nilBase
        | some baseSrc =>
          match afterDocs unmarshal baseSrc opts.localSource pointee with
          | .error e => .error e
          | .ok t2 => applyEnvStep env pd fo opts.envPre opts.delim opts.normalizeDash t2
      | _ => .error .notPtrStruct

/-- Value of the field reached by a list of positional indices, descending
only through struct-kind fields (the only shape the walker recurses into).
The empty index list addresses no field. -/
def valueAtIdx : GoFields → List Nat → Option GoValue
  | .nil, _ => none
  | .cons _ _ _ _ _, [] => none
  | .cons _ _ _ v _, [0] => some v
  | .cons _ _ _ v _, 0 :: l =>
    match v with
    | .structV inner => valueAtIdx inner l
    | _ => none
  | .cons _ _ _ _ rest, (Nat.succ i) :: l => valueAtIdx rest (i :: l)

/-- The walker-visited field at an index list together with its derived
dotted path: defined exactly when every field along the way (the addressed
field included) is exported with a yaml tag other than "-" and every
proper ancestor is a struct-kind field, and in that case the accumulated
dotted path is built the way the walker builds it. -/
def visitedLeafPath : GoFields → List Nat → String → Option (String × GoValue)
  | .nil, _, _ => none
  | .cons _ _ _ _ _, [], _ => none
  | .cons name exported tag v _, [0], path =>
    if exported = true ∧ tag ≠ "-" then
      some (extendPath path (getStructPath name (stripTagOptions tag)), v)
    else none
  | .cons name exported tag v _, 0 :: l, path =>
    match v with
    | .structV inner =>
      if exported = true ∧ tag ≠ "-" then
        visitedLeafPath inner l (extendPath path (getStructPath name (stripTagOptions tag)))
      else none
    | _ => none
  | .cons _ _ _ _ rest, (Nat.succ i) :: l, path => visitedLeafPath rest (i :: l) path

/-- The field at an index list whose own entry the walker skips: every
proper ancestor is a visited struct-kind field, and the addressed field
itself is unexported or carries the yaml tag "-". -/
def skippedFieldAt : GoFields → List Nat → Option GoValue
  | .nil, _ => none
  | .cons _ _ _ _ _, [] => none
  | .cons _ exported tag v _, [0] =>
    if exported = false ∨ tag = "-" then some v else none
  | .cons _ exported tag v _, 0 :: l =>
    match v with
    | .structV inner =>
      if exported = true ∧ tag ≠ "-" then skippedFieldAt inner l else none
    | _ => none
  | .cons _ _ _ _ rest, (Nat.succ i) :: l => skippedFieldAt rest (i :: l)

/-- The environment key as the specification sentence words it: UPPER of
the prefix concatenated with UPPER of the dotted path with every dot
replaced by the delimiter, dashes turned to underscores when the
dash-normalization option is set. -/
def claimedKeyC3 ( envPre delim path : String) (nd : Bool) : String :=
  goToUpper envPre ++
    (if nd then replaceAll (goToUpper (replaceAll path "." delim)) "-" "_"
     else goToUpper (replaceAll path "." delim))

/-- The environment key the walker actually derives: the prefix appended
verbatim (never uppercased), the dotted path uppercased, dots replaced by
the delimiter only when the delimiter is nonempty, and dashes turned to
underscores when the dash-normalization option is set. -/
def walkerEnvKey ( envPre delim path : String) (nd : Bool) : String :=
  envPre ++
    (if nd then
      replaceAll (if delim ≠ "" then replaceAll (goToUpper path) "." delim
                  else goToUpper path) "-" "_"
     else
      (if delim ≠ "" then replaceAll (goToUpper path) "." delim
       else goToUpper path))

/-- The target fails reflect validation: Go nil, a non-pointer, or a
pointer whose pointee is not struct-kind. -/
def targetBad : TargetRef → Bool
  | .nilRef => true
  | .nonPtr => true
  | .ptr (.structV _) => false
  | .ptr _ => true

/-- Invalid call-time setup: non-empty prefix with empty delimiter, a bad
target, or a nil base source. -/
def invalidSetup (opts : LoaderOptions) : Bool :=
  (decide (opts.envPre ≠ "") && decide (opts.delim = "")) || targetBad opts.target ||
    opts.baseSource.isNone

/-- A decoder that returns the target untouched (an empty document). -/
def idUnmarshal : String → GoValue → Except String GoValue := fun _ t => .ok t

/-- The empty environment. -/
def noEnv : String → Option String := fun _ => none

/-- A duration parser that accepts nothing (no duration field is exercised
by any concrete witness). -/
def noDuration : String → Option Int := fun _ => none

/-- Float operations that parse nothing (no float field is exercised by
the witnesses that use them). -/
def noFloat : FloatOps := ⟨fun _ => none, fun x => x⟩

/-- Concrete float operations for witnesses: an opaque coding in which
"1.5" parses to code 7 and the float32 narrowing maps a code x to
x + 1. -/
def foEx : FloatOps := ⟨fun s => if s = "1.5" then some 7 else none, fun x => x + 1⟩

/-- An environment holding exactly one variable. -/
def envSingle (key val : String) : String → Option String :=
  fun k => if k = key then some val else none

/-- Inversion: a successful walk of a cons cell walks the tail
successfully and keeps the cell's name, export flag and tag. -/
theorem walk_cons_ok {env : String → Option String} {pd : String → Option Int} {fo : FloatOps}
    { envPre delim : String} {nd : Bool} {path name : String} {exported : Bool}
    {tag : String} {v : GoValue} {rest fs' : GoFields}
    (hw : walkFields env pd fo envPre delim nd path (.cons name exported tag v rest) = .ok fs') :
    ∃ v' rest', fs' = .cons name exported tag v' rest' ∧
      walkFields env pd fo envPre delim nd path rest = .ok rest' := by
  simp only [walkFields] at hw
  split at hw
  · split at hw
    · exact ⟨v, _, by cases hw; exact ⟨rfl, by assumption⟩⟩
    · cases hw
  · split at hw
    · split at hw
      · exact ⟨v, _, by cases hw; exact ⟨rfl, by assumption⟩⟩
      · cases hw
    · split at hw
      · split at hw
        · cases hw
        · split at hw
          · exact ⟨_, _, by cases hw; exact ⟨rfl, by assumption⟩⟩
          · cases hw
      · split at hw
        · split at hw
          · cases hw
          · split at hw
            · exact ⟨_, _, by cases hw; exact ⟨rfl, by assumption⟩⟩
            · cases hw
        · split at hw
          · exact ⟨v, _, by cases hw; exact ⟨rfl, by assumption⟩⟩
          · cases hw

/-- Core walk lemma: in a successful walk, every visited leaf (non-struct)
field ends up unchanged when its derived environment key is absent, and
equal to the successfully parsed environment value when the key is
present. -/
theorem walk_visited_leaf (env : String → Option String) (pd : String → Option Int) (fo : FloatOps)
    ( envPre delim : String) (nd : Bool) :
    ∀ (k : Nat) (fs : GoFields), sizeOf fs ≤ k → ∀ (path : String) (fs' : GoFields)
      (idxs : List Nat) (fp : String) (v : GoValue),
      walkFields env pd fo envPre delim nd path fs = .ok fs' →
      visitedLeafPath fs idxs path = some (fp, v) →
      (∀ inner, v ≠ .structV inner) →
      ∃ v', valueAtIdx fs' idxs = some v' ∧
        ((findEnvValue env envPre delim fp nd = none ∧ v' = v) ∨
          ∃ s, findEnvValue env envPre delim fp nd = some s ∧
            setFieldValue pd fo v s = .ok v') := by
  intro k
  induction k with
  | zero =>
    intro fs hk
    cases fs with
    | nil => intro _ _ idxs _ _ _ hv; simp [visitedLeafPath] at hv
    | cons n e t v₀ rest => simp at hk
  | succ k ih =>
    intro fs hk path fs' idxs fp v hw hv hleaf
    cases fs with
    | nil => simp [visitedLeafPath] at hv
    | cons n e t v₀ rest =>
      obtain ⟨i, l, rfl⟩ : ∃ i l, idxs = i :: l := by
        cases idxs with
        | nil => simp [visitedLeafPath] at hv
        | cons i l => exact ⟨i, l, rfl⟩
      cases i with
      | succ i =>
        obtain ⟨v', rest', rfl, hwr⟩ := walk_cons_ok hw
        simp only [visitedLeafPath] at hv
        simp only [valueAtIdx]
        exact ih rest (by simp at hk; omega) path rest' (i :: l) fp v hwr hv hleaf
      | zero =>
        cases l with
        | nil =>
          simp only [visitedLeafPath] at hv
          split at hv
          · rename_i hcond
            injection hv with hpair
            injection hpair with h1 h2
            subst h1
            subst h2
            simp only [walkFields] at hw
            rw [if_neg (by simp [hcond.1]), if_neg hcond.2] at hw
            have hnotStruct : ∀ inner, v₀ ≠ GoValue.structV inner := hleaf
            rcases v₀ with s0 | ⟨w0, i0⟩ | ⟨w0, u0⟩ | ⟨w0, f0⟩ | b0 | d0 | inner0 | ⟨tn0, p0⟩ | tn0
            case structV => exact absurd rfl (hnotStruct inner0)
            all_goals (
              split at hw
              · rename_i s hfind
                split at hw
                · cases hw
                · rename_i v' hset
                  split at hw
                  · rename_i rest' hwr
                    cases hw
                    exact ⟨v', by simp [valueAtIdx], Or.inr ⟨s, hfind, hset⟩⟩
                  · cases hw
              · rename_i hfind
                split at hw
                · rename_i rest' hwr
                  cases hw
                  exact ⟨_, by simp [valueAtIdx], Or.inl ⟨hfind, rfl⟩⟩
                · cases hw)
          · cases hv
        | cons j l' =>
          cases v₀ with
          | structV inner =>
            simp only [visitedLeafPath] at hv
            split at hv
            · rename_i hcond
              simp only [walkFields] at hw
              rw [if_neg (by simp [hcond.1]), if_neg hcond.2] at hw
              split at hw
              · cases hw
              · rename_i inner' hwi
                split at hw
                · rename_i rest' hwr
                  cases hw
                  simp only [valueAtIdx]
                  exact ih inner (by simp at hk; omega)
                    (extendPath path (getStructPath n (stripTagOptions t))) inner'
                    (j :: l') fp v hwi hv hleaf
                · cases hw
            · cases hv
          | strV s0 => simp [visitedLeafPath] at hv
          | intV w0 i0 => simp [visitedLeafPath] at hv
          | uintV w0 u0 => simp [visitedLeafPath] at hv
          | floatV w0 f0 => simp [visitedLeafPath] at hv
          | boolV b0 => simp [visitedLeafPath] at hv
          | durationV d0 => simp [visitedLeafPath] at hv
          | ptrV tn0 p0 => simp [visitedLeafPath] at hv
          | otherV tn0 => simp [visitedLeafPath] at hv

/-- Frame lemma: a successful walk leaves every skipped field (unexported
or tagged "-") exactly as it was, whatever the environment contains. -/
theorem walk_skipped_frame (env : String → Option String) (pd : String → Option Int) (fo : FloatOps)
    ( envPre delim : String) (nd : Bool) :
    ∀ (k : Nat) (fs : GoFields), sizeOf fs ≤ k → ∀ (path : String) (fs' : GoFields)
      (idxs : List Nat) (v : GoValue),
      walkFields env pd fo envPre delim nd path fs = .ok fs' →
      skippedFieldAt fs idxs = some v →
      valueAtIdx fs' idxs = some v := by
  intro k
  induction k with
  | zero =>
    intro fs hk
    cases fs with
    | nil => intro _ _ idxs _ _ hv; simp [skippedFieldAt] at hv
    | cons n e t v₀ rest => simp at hk
  | succ k ih =>
    intro fs hk path fs' idxs v hw hv
    cases fs with
    | nil => simp [skippedFieldAt] at hv
    | cons n e t v₀ rest =>
      obtain ⟨i, l, rfl⟩ : ∃ i l, idxs = i :: l := by
        cases idxs with
        | nil => simp [skippedFieldAt] at hv
        | cons i l => exact ⟨i, l, rfl⟩
      cases i with
      | succ i =>
        obtain ⟨v', rest', rfl, hwr⟩ := walk_cons_ok hw
        simp only [skippedFieldAt] at hv
        simp only [valueAtIdx]
        exact ih rest (by simp at hk; omega) path rest' (i :: l) v hwr hv
      | zero =>
        cases l with
        | nil =>
          simp only [skippedFieldAt] at hv
          split at hv
          · rename_i hskip
            injection hv with h2
            subst h2
            simp only [walkFields] at hw
            rcases hskip with he | ht
            · rw [if_pos he] at hw
              split at hw
              · rename_i rest' hwr
                cases hw
                simp [valueAtIdx]
              · cases hw
            · by_cases he : e = false
              · rw [if_pos he] at hw
                split at hw
                · rename_i rest' hwr
                  cases hw
                  simp [valueAtIdx]
                · cases hw
              · rw [if_neg he, if_pos ht] at hw
                split at hw
                · rename_i rest' hwr
                  cases hw
                  simp [valueAtIdx]
                · cases hw
          · cases hv
        | cons j l' =>
          cases v₀ with
          | structV inner =>
            simp only [skippedFieldAt] at hv
            split at hv
            · rename_i hcond
              simp only [walkFields] at hw
              rw [if_neg (by simp [hcond.1]), if_neg hcond.2] at hw
              split at hw
              · cases hw
              · rename_i inner' hwi
                split at hw
                · rename_i rest' hwr
                  cases hw
                  simp only [valueAtIdx]
                  exact ih inner (by simp at hk; omega)
                    (extendPath path (getStructPath n (stripTagOptions t))) inner'
                    (j :: l') v hwi hv
                · cases hw
            · cases hv
          | strV s0 => simp [skippedFieldAt] at hv
          | intV w0 i0 => simp [skippedFieldAt] at hv
          | uintV w0 u0 => simp [skippedFieldAt] at hv
          | floatV w0 f0 => simp [skippedFieldAt] at hv
          | boolV b0 => simp [skippedFieldAt] at hv
          | durationV d0 => simp [skippedFieldAt] at hv
          | ptrV tn0 p0 => simp [skippedFieldAt] at hv
          | otherV tn0 => simp [skippedFieldAt] at hv

/-- An environment with no matching key for any visited leaf: when every
lookup misses, the walk succeeds and is the identity. -/
theorem walk_all_miss (env : String → Option String) (pd : String → Option Int) (fo : FloatOps)
    ( envPre delim : String) (nd : Bool) (hmiss : ∀ key, env key = none) :
    ∀ (k : Nat) (fs : GoFields), sizeOf fs ≤ k → ∀ (path : String),
      walkFields env pd fo envPre delim nd path fs = .ok fs := by
  intro k
  induction k with
  | zero =>
    intro fs hk
    cases fs with
    | nil => intro _; simp [walkFields]
    | cons n e t v₀ rest => simp at hk
  | succ k ih =>
    intro fs hk path
    cases fs with
    | nil => simp [walkFields]
    | cons n e t v₀ rest =>
      have hrest := ih rest (by simp at hk; omega) path
      simp only [walkFields]
      by_cases he : e = false
      · rw [if_pos he, hrest]
      · rw [if_neg he]
        by_cases ht : t = "-"
        · rw [if_pos ht, hrest]
        · rw [if_neg ht]
          have hfind : findEnvValue env envPre delim
              (extendPath path (getStructPath n (stripTagOptions t))) nd = none := by
            simp [findEnvValue, hmiss]
          cases v₀ with
          | structV inner =>
            simp [ih inner (by simp at hk; omega)
              (extendPath path (getStructPath n (stripTagOptions t))), hrest]
          | strV s0 => simp [hfind, hrest]
          | intV w0 i0 => simp [hfind, hrest]
          | uintV w0 u0 => simp [hfind, hrest]
          | floatV w0 f0 => simp [hfind, hrest]
          | boolV b0 => simp [hfind, hrest]
          | durationV d0 => simp [hfind, hrest]
          | ptrV tn0 p0 => simp [hfind, hrest]
          | otherV tn0 => simp [hfind, hrest]

/-- When the first field of a struct is a visited non-struct field whose
environment lookup hits and whose set fails, the walk aborts immediately
with the error naming the field's dotted path. -/
theorem walk_head_set_error {env : String → Option String} {pd : String → Option Int} {fo : FloatOps}
    { envPre delim : String} {nd : Bool} {path name tag : String} {v : GoValue}
    {rest : GoFields} {s : String} {err : FieldErr}
    (htag : tag ≠ "-")
    (hleaf : ∀ inner, v ≠ GoValue.structV inner)
    (hfind : findEnvValue env envPre delim
      (extendPath path (getStructPath name (stripTagOptions tag))) nd = some s)
    (hset : setFieldValue pd fo v s = .error err) :
    walkFields env pd fo envPre delim nd path (.cons name true tag v rest) =
      .error (.setField (extendPath path (getStructPath name (stripTagOptions tag))) err) := by
  simp only [walkFields]
  rw [if_neg (by simp), if_neg htag]
  cases v with
  | structV inner => exact absurd rfl (hleaf inner)
  | strV s0 => simp [hfind, hset]
  | intV w0 i0 => simp [hfind, hset]
  | uintV w0 u0 => simp [hfind, hset]
  | floatV w0 f0 => simp [hfind, hset]
  | boolV b0 => simp [hfind, hset]
  | durationV d0 => simp [hfind, hset]
  | ptrV tn0 p0 => simp [hfind, hset]
  | otherV tn0 => simp [hfind, hset]

/-- LoadConfig on a well-formed setup reduces to documents-then-walker. -/
theorem LoadConfig_steps (um : String → GoValue → Except String GoValue)
    (pd : String → Option Int) (fo : FloatOps) (env : String → Option String)
    (bs : SourceOutcome) (ls : Option SourceOutcome) ( envPre delim : String)
    (fs0 : GoFields) (nd fl dk : Bool)
    (hvalid : ¬( envPre ≠ "" ∧ delim = "")) :
    LoadConfig um pd fo env ⟨some bs, ls, envPre, delim, .ptr (.structV fs0), nd, fl, dk⟩ =
      match afterDocs um bs ls (.structV fs0) with
      | .error e => .error e
      | .ok t2 => applyEnvStep env pd fo envPre delim nd t2 := by
  simp [LoadConfig, hvalid]

/-- The walker step on a struct-shaped pointee is the field walk. -/
theorem applyEnvStep_structV (env : String → Option String) (pd : String → Option Int) (fo : FloatOps)
    ( envPre delim : String) (nd : Bool) (fs : GoFields) :
    applyEnvStep env pd fo envPre delim nd (.structV fs) =
      match walkFields env pd fo envPre delim nd "" fs with
      | .ok fs' => .ok (.structV fs')
      | .error e => .error (.applyEnvErr e) := by
  simp only [applyEnvStep, applyEnvOverrides]
  cases walkFields env pd fo envPre delim nd "" fs with
  | ok fs' => simp [GoValue.deref]
  | error e => simp

/-- C1: for every target struct, base/local documents and environment
snapshot, if a visited leaf field's derived environment key is present
and its value parses for the field's type, then after a successful
LoadConfig call that field equals the parsed environment value,
regardless of what the document layers set it to. -/
theorem C1_env_override_wins (um : String → GoValue → Except String GoValue)
    (pd : String → Option Int) (fo : FloatOps) (env : String → Option String)
    (bs : SourceOutcome) (ls : Option SourceOutcome) ( envPre delim : String)
    (fs0 fs2 : GoFields) (nd fl dk : Bool) (final : GoValue)
    (idxs : List Nat) (fp s : String) (v v' : GoValue)
    (hload : LoadConfig um pd fo env
      ⟨some bs, ls, envPre, delim, .ptr (.structV fs0), nd, fl, dk⟩ = .ok final)
    (hdocs : afterDocs um bs ls (.structV fs0) = .ok (.structV fs2))
    (hvisit : visitedLeafPath fs2 idxs "" = some (fp, v))
    (hleaf : ∀ inner, v ≠ GoValue.structV inner)
    (hfind : findEnvValue env envPre delim fp nd = some s)
    (hset : setFieldValue pd fo v s = .ok v') :
    ∃ fs', final = .structV fs' ∧ valueAtIdx fs' idxs = some v' := by
  have hvalid : ¬( envPre ≠ "" ∧ delim = "") := by
    intro hc
    simp [LoadConfig, hc] at hload
  rw [LoadConfig_steps um pd fo env bs ls envPre delim fs0 nd fl dk hvalid] at hload
  simp only [hdocs] at hload
  rw [applyEnvStep_structV] at hload
  cases hw : walkFields env pd fo envPre delim nd "" fs2 with
  | error e => simp [hw] at hload
  | ok fs' =>
    simp only [hw] at hload
    injection hload with hfinal
    subst hfinal
    obtain ⟨v'', hval, hdisj⟩ := walk_visited_leaf env pd fo envPre delim nd (sizeOf fs2)
      fs2 le_rfl "" fs' idxs fp v hw hvisit hleaf
    rcases hdisj with ⟨hmiss, _⟩ | ⟨s', hs', hset'⟩
    · rw [hfind] at hmiss; cases hmiss
    · rw [hfind] at hs'
      injection hs' with hs'
      subst hs'
      rw [hset] at hset'
      injection hset' with hv'
      exact ⟨fs', rfl, by rw [hval, hv']⟩

/-- C1 witness: concrete run where the environment overrides the document
value of a nested leaf. -/
theorem C1_witness :
    ∃ fs', (GoValue.structV (.cons "App" true "app"
        (.structV (.cons "Name" true "name" (.strV "envname") .nil)) .nil)) =
        .structV fs' ∧ valueAtIdx fs' [0, 0] = some (.strV "envname") :=
  C1_env_override_wins idUnmarshal noDuration noFloat (envSingle "MYAPP_APP__NAME" "envname")
    (.bytes "doc") none "MYAPP_" "__"
    (.cons "App" true "app" (.structV (.cons "Name" true "name" (.strV "base") .nil)) .nil)
    (.cons "App" true "app" (.structV (.cons "Name" true "name" (.strV "base") .nil)) .nil)
    false false false
    (.structV (.cons "App" true "app"
      (.structV (.cons "Name" true "name" (.strV "envname") .nil)) .nil))
    [0, 0] "app.name" "envname" (.strV "base") (.strV "envname")
    rfl rfl rfl (fun _ h => GoValue.noConfusion h) rfl rfl

/-- C2 counterexample: a present LocalSource whose open fails (the local
document path does not exist) makes LoadConfig fail, it does not succeed
with base values. -/
theorem C2_counterexample :
    LoadConfig idUnmarshal noDuration noFloat noEnv
      ⟨some (.bytes "base"), some (.openFail "no such file or directory"),
       "", "", .ptr (.structV (.cons "A" true "" (.strV "b") .nil)), false, false, false⟩ =
      .error (.loadLocalErr (.openErr "no such file or directory")) := rfl

/-- C2 amended: a nil LocalSource is skipped with no error, but a present
local source whose open fails makes LoadConfig fail with the wrapped open
error. -/
theorem C2_local_policy (um : String → GoValue → Except String GoValue)
    (pd : String → Option Int) (fo : FloatOps) (env : String → Option String)
    (bs : SourceOutcome) ( envPre delim : String) (fs0 : GoFields)
    (nd fl dk : Bool) (c : String) (t1 : GoValue)
    (hvalid : ¬( envPre ≠ "" ∧ delim = ""))
    (hbase : loadYAMLFromSource um bs (.structV fs0) = .ok t1) :
    LoadConfig um pd fo env
      ⟨some bs, none, envPre, delim, .ptr (.structV fs0), nd, fl, dk⟩ =
      applyEnvStep env pd fo envPre delim nd t1 ∧
    LoadConfig um pd fo env
      ⟨some bs, some (.openFail c), envPre, delim, .ptr (.structV fs0), nd, fl, dk⟩ =
      .error (.loadLocalErr (.openErr c)) := by
  constructor
  · rw [LoadConfig_steps um pd fo env bs none envPre delim fs0 nd fl dk hvalid]
    simp [afterDocs, hbase]
  · rw [LoadConfig_steps um pd fo env bs (some (.openFail c)) envPre delim fs0 nd fl dk hvalid]
    simp only [afterDocs, hbase]
    simp [loadYAMLFromSource]

/-- C2 witness: the amended policy at a concrete base document and
missing local file. -/
theorem C2_witness :
    LoadConfig idUnmarshal noDuration noFloat noEnv
      ⟨some (.bytes "base"), none, "", "",
       .ptr (.structV (.cons "A" true "" (.strV "b") .nil)), false, false, false⟩ =
      applyEnvStep noEnv noDuration noFloat "" "" false
        (.structV (.cons "A" true "" (.strV "b") .nil)) ∧
    LoadConfig idUnmarshal noDuration noFloat noEnv
      ⟨some (.bytes "base"), some (.openFail "gone"), "", "",
       .ptr (.structV (.cons "A" true "" (.strV "b") .nil)), false, false, false⟩ =
      .error (.loadLocalErr (.openErr "gone")) :=
  C2_local_policy idUnmarshal noDuration noFloat noEnv (.bytes "base") "" ""
    (.cons "A" true "" (.strV "b") .nil) false false false "gone"
    (.structV (.cons "A" true "" (.strV "b") .nil)) (by simp) rfl

/-- C3 counterexample: the walker's key keeps the prefix verbatim, so a
variable stored under the claimed key (uppercased prefix) is not found
while one under the verbatim-prefix key is; moreover with an empty
delimiter the claimed key loses its dots while the walker keeps them. -/
theorem C3_counterexample :
    claimedKeyC3 "pre_" "__" "app.name" false = "PRE_APP__NAME" ∧
    findEnvValue (envSingle "PRE_APP__NAME" "v") "pre_" "__" "app.name" false = none ∧
    findEnvValue (envSingle "pre_APP__NAME" "v") "pre_" "__" "app.name" false = some "v" ∧
    claimedKeyC3 "" "" "a.b" false = "AB" ∧
    findEnvValue (envSingle "A.B" "v") "" "" "a.b" false = some "v" :=
  ⟨rfl, rfl, rfl, rfl, rfl⟩

/-- C3 amended: the looked-up key is the prefix verbatim followed by the
uppercased dotted path with dots replaced by the delimiter when the
delimiter is nonempty and dashes turned to underscores when the
dash-normalization option is set. -/
theorem C3_env_key_derivation (env : String → Option String)
    ( envPre delim path : String) (nd : Bool) :
    findEnvValue env envPre delim path nd = env (walkerEnvKey envPre delim path nd) := by
  unfold findEnvValue walkerEnvKey
  by_cases hd : delim = "" <;> by_cases hn : nd <;> simp [hd, hn]

/-- C4: LoadConfig rejects invalid call-time setup (non-empty prefix with
empty delimiter, nil or non-pointer-to-struct target, nil base source)
with a configuration error whose value does not depend on the decoder,
the duration parser or the environment: no source is consulted and no
environment lookup happens, and no updated target is produced. -/
theorem C4_validation_rejects (opts : LoaderOptions) (h : invalidSetup opts = true)
    (um1 um2 : String → GoValue → Except String GoValue)
    (pd1 pd2 : String → Option Int) (fo1 fo2 : FloatOps)
    (env1 env2 : String → Option String) :
    LoadConfig um1 pd1 fo1 env1 opts = LoadConfig um2 pd2 fo2 env2 opts ∧
    ∃ e, LoadConfig um1 pd1 fo1 env1 opts = .error e ∧ e.isConfigErr = true := by
  obtain ⟨bsrc, lsrc, pre, dl, tgt, nd, fl, dk⟩ := opts
  by_cases hd : pre ≠ "" ∧ dl = ""
  · refine ⟨?_, .delimiterEmpty, ?_, rfl⟩ <;> simp [LoadConfig, hd]
  · cases tgt with
    | nilRef => refine ⟨?_, .nilTarget, ?_, rfl⟩ <;> simp [LoadConfig, hd]
    | nonPtr => refine ⟨?_, .notPtrStruct, ?_, rfl⟩ <;> simp [LoadConfig, hd]
    | ptr p =>
      cases p with
      | structV fs =>
        have hb : bsrc = none := by
          simp [invalidSetup, targetBad] at h
          rcases h with h | h
          · exact absurd h hd
          · exact h
        subst hb
        refine ⟨?_, .nilBase, ?_, rfl⟩ <;> simp [LoadConfig, hd]
      | strV s0 => refine ⟨?_, .notPtrStruct, ?_, rfl⟩ <;> simp [LoadConfig, hd]
      | intV w0 i0 => refine ⟨?_, .notPtrStruct, ?_, rfl⟩ <;> simp [LoadConfig, hd]
      | uintV w0 u0 => refine ⟨?_, .notPtrStruct, ?_, rfl⟩ <;> simp [LoadConfig, hd]
      | floatV w0 f0 => refine ⟨?_, .notPtrStruct, ?_, rfl⟩ <;> simp [LoadConfig, hd]
      | boolV b0 => refine ⟨?_, .notPtrStruct, ?_, rfl⟩ <;> simp [LoadConfig, hd]
      | durationV d0 => refine ⟨?_, .notPtrStruct, ?_, rfl⟩ <;> simp [LoadConfig, hd]
      | ptrV tn0 p0 => refine ⟨?_, .notPtrStruct, ?_, rfl⟩ <;> simp [LoadConfig, hd]
      | otherV tn0 => refine ⟨?_, .notPtrStruct, ?_, rfl⟩ <;> simp [LoadConfig, hd]

/-- C4 witness: a non-empty prefix with an empty delimiter is rejected
regardless of decoder and environment. -/
theorem C4_witness :
    (LoadConfig idUnmarshal noDuration noFloat noEnv
      ⟨some (.bytes "base"), none, "MYAPP_", "", .ptr (.structV .nil), false, false, false⟩ =
     LoadConfig (fun _ _ => .error "boom") noDuration noFloat (envSingle "MYAPP_X" "1")
      ⟨some (.bytes "base"), none, "MYAPP_", "", .ptr (.structV .nil), false, false, false⟩) ∧
    ∃ e, LoadConfig idUnmarshal noDuration noFloat noEnv
      ⟨some (.bytes "base"), none, "MYAPP_", "", .ptr (.structV .nil), false, false, false⟩ =
        .error e ∧ e.isConfigErr = true :=
  C4_validation_rejects
    ⟨some (.bytes "base"), none, "MYAPP_", "", .ptr (.structV .nil), false, false, false⟩
    rfl idUnmarshal (fun _ _ => .error "boom") noDuration noDuration noFloat noFloat noEnv
    (envSingle "MYAPP_X" "1")

/-- C5: a visited leaf field whose derived environment key is absent is
left exactly as the document layers set it in any successful walk, and an
environment with no matching key at all makes the walk the identity with
no error. -/
theorem C5_env_miss_frame (env : String → Option String) (pd : String → Option Int) (fo : FloatOps)
    ( envPre delim : String) (nd : Bool) :
    (∀ fs fs' path idxs fp v,
        walkFields env pd fo envPre delim nd path fs = .ok fs' →
        visitedLeafPath fs idxs path = some (fp, v) →
        (∀ inner, v ≠ GoValue.structV inner) →
        findEnvValue env envPre delim fp nd = none →
        valueAtIdx fs' idxs = some v) ∧
    ((∀ key, env key = none) →
      ∀ path fs, walkFields env pd fo envPre delim nd path fs = .ok fs) := by
  constructor
  · intro fs fs' path idxs fp v hw hv hleaf hmiss
    obtain ⟨v', hval, hdisj⟩ := walk_visited_leaf env pd fo envPre delim nd (sizeOf fs)
      fs le_rfl path fs' idxs fp v hw hv hleaf
    rcases hdisj with ⟨_, rfl⟩ | ⟨s, hs, _⟩
    · exact hval
    · rw [hmiss] at hs; cases hs
  · intro hmiss path fs
    exact walk_all_miss env pd fo envPre delim nd hmiss (sizeOf fs) fs le_rfl path

/-- C5 witness: an environment variable under a wrong prefix does not
touch the field (the derived key misses), at a concrete input. -/
theorem C5_witness :
    valueAtIdx (.cons "Name" true "" (.strV "base") .nil) [0] = some (.strV "base") :=
  (C5_env_miss_frame (envSingle "WRONG_NAME" "v") noDuration noFloat "MYAPP_" "__" false).1
    (.cons "Name" true "" (.strV "base") .nil)
    (.cons "Name" true "" (.strV "base") .nil) "" [0] "name" (.strV "base")
    rfl rfl (fun _ h => GoValue.noConfusion h) rfl

/-- C6 counterexample: an int8 field with environment value "300"
(overflowing int8) does not fail: LoadConfig succeeds and the field
silently wraps to 44. -/
theorem C6_counterexample :
    LoadConfig idUnmarshal noDuration noFloat (envSingle "SMALL" "300")
      ⟨some (.bytes "doc"), none, "", "",
       .ptr (.structV (.cons "Small" true "" (.intV 8 0) .nil)), false, false, false⟩ =
      .ok (.structV (.cons "Small" true "" (.intV 8 44) .nil)) := rfl

/-- C6 amended: numeric environment values are parsed at 64 bits.  In a
successful walk a matched signed (resp. unsigned) integer leaf holds the
64-bit parse truncated to the field's width, and a matched float leaf
holds the ParseFloat result, narrowed to float32 on a 32-bit field; so
malformed input or overflow of the 64-bit parse can never reach a
successful walk, while a value overflowing only the narrower field width
is truncated (integers) or narrowed (float32) without error; a malformed
value on a first-field integer or float leaf aborts with the coercion
error naming the field's path. -/
theorem C6_numeric_coercion (env : String → Option String) (pd : String → Option Int) (fo : FloatOps)
    ( envPre delim : String) (nd : Bool) :
    (∀ fs fs' path idxs fp w v s,
        walkFields env pd fo envPre delim nd path fs = .ok fs' →
        visitedLeafPath fs idxs path = some (fp, .intV w v) →
        findEnvValue env envPre delim fp nd = some s →
        ∃ n, goParseInt64 s = some n ∧
          valueAtIdx fs' idxs = some (.intV w (truncInt w n))) ∧
    (∀ fs fs' path idxs fp w v s,
        walkFields env pd fo envPre delim nd path fs = .ok fs' →
        visitedLeafPath fs idxs path = some (fp, .uintV w v) →
        findEnvValue env envPre delim fp nd = some s →
        ∃ n, goParseUint64 s = some n ∧
          valueAtIdx fs' idxs = some (.uintV w (truncUint w n))) ∧
    (∀ fs fs' path idxs fp w v s,
        walkFields env pd fo envPre delim nd path fs = .ok fs' →
        visitedLeafPath fs idxs path = some (fp, .floatV w v) →
        findEnvValue env envPre delim fp nd = some s →
        ∃ x, fo.parseFloat s = some x ∧
          valueAtIdx fs' idxs = some (.floatV w (if w = 32 then fo.toFloat32 x else x))) ∧
    (∀ path name tag w v rest s, tag ≠ "-" →
        findEnvValue env envPre delim
          (extendPath path (getStructPath name (stripTagOptions tag))) nd = some s →
        goParseInt64 s = none →
        walkFields env pd fo envPre delim nd path (.cons name true tag (.intV w v) rest) =
          .error (.setField (extendPath path (getStructPath name (stripTagOptions tag)))
            (.parseIntErr s))) ∧
    (∀ path name tag w v rest s, tag ≠ "-" →
        findEnvValue env envPre delim
          (extendPath path (getStructPath name (stripTagOptions tag))) nd = some s →
        fo.parseFloat s = none →
        walkFields env pd fo envPre delim nd path (.cons name true tag (.floatV w v) rest) =
          .error (.setField (extendPath path (getStructPath name (stripTagOptions tag)))
            (.parseFloatErr s))) := by
  refine ⟨?_, ?_, ?_, ?_, ?_⟩
  · intro fs fs' path idxs fp w v s hw hv hfind
    obtain ⟨v', hval, hdisj⟩ := walk_visited_leaf env pd fo envPre delim nd (sizeOf fs)
      fs le_rfl path fs' idxs fp (.intV w v) hw hv (fun _ h => GoValue.noConfusion h)
    rcases hdisj with ⟨hmiss, _⟩ | ⟨s', hs', hset'⟩
    · rw [hfind] at hmiss; cases hmiss
    · rw [hfind] at hs'
      injection hs' with hs'
      subst hs'
      simp only [setFieldValue] at hset'
      cases hp : goParseInt64 s with
      | none => simp only [hp] at hset'; exact Except.noConfusion hset'
      | some n =>
        simp only [hp] at hset'
        injection hset' with h
        exact ⟨n, rfl, by rw [hval, ← h]⟩
  · intro fs fs' path idxs fp w v s hw hv hfind
    obtain ⟨v', hval, hdisj⟩ := walk_visited_leaf env pd fo envPre delim nd (sizeOf fs)
      fs le_rfl path fs' idxs fp (.uintV w v) hw hv (fun _ h => GoValue.noConfusion h)
    rcases hdisj with ⟨hmiss, _⟩ | ⟨s', hs', hset'⟩
    · rw [hfind] at hmiss; cases hmiss
    · rw [hfind] at hs'
      injection hs' with hs'
      subst hs'
      simp only [setFieldValue] at hset'
      cases hp : goParseUint64 s with
      | none => simp only [hp] at hset'; exact Except.noConfusion hset'
      | some n =>
        simp only [hp] at hset'
        injection hset' with h
        exact ⟨n, rfl, by rw [hval, ← h]⟩
  · intro fs fs' path idxs fp w v s hw hv hfind
    obtain ⟨v', hval, hdisj⟩ := walk_visited_leaf env pd fo envPre delim nd (sizeOf fs)
      fs le_rfl path fs' idxs fp (.floatV w v) hw hv (fun _ h => GoValue.noConfusion h)
    rcases hdisj with ⟨hmiss, _⟩ | ⟨s', hs', hset'⟩
    · rw [hfind] at hmiss; cases hmiss
    · rw [hfind] at hs'
      injection hs' with hs'
      subst hs'
      simp only [setFieldValue] at hset'
      cases hp : fo.parseFloat s with
      | none => simp only [hp] at hset'; exact Except.noConfusion hset'
      | some x =>
        simp only [hp] at hset'
        injection hset' with h
        exact ⟨x, rfl, by rw [hval, ← h]⟩
  · intro path name tag w v rest s htag hfind hparse
    exact walk_head_set_error htag (fun _ h => GoValue.noConfusion h) hfind
      (by simp [setFieldValue, hparse])
  · intro path name tag w v rest s htag hfind hparse
    exact walk_head_set_error htag (fun _ h => GoValue.noConfusion h) hfind
      (by simp [setFieldValue, hparse])

/-- C6 witness: the amended behaviour at a concrete int8 field with an
in-64-bit-range but int8-overflowing value, and at a concrete float32
field whose parsed value is silently narrowed. -/
theorem C6_witness :
    (∃ n, goParseInt64 "300" = some n ∧
      valueAtIdx (.cons "Small" true "" (.intV 8 44) .nil) [0] =
        some (.intV 8 (truncInt 8 n))) ∧
    (∃ x, foEx.parseFloat "1.5" = some x ∧
      valueAtIdx (.cons "Rate" true "" (.floatV 32 8) .nil) [0] =
        some (.floatV 32 (foEx.toFloat32 x))) :=
  ⟨(C6_numeric_coercion (envSingle "SMALL" "300") noDuration noFloat "" "" false).1
      (.cons "Small" true "" (.intV 8 0) .nil)
      (.cons "Small" true "" (.intV 8 44) .nil) "" [0] "small" 8 0 "300"
      rfl rfl rfl,
    (C6_numeric_coercion (envSingle "RATE" "1.5") noDuration foEx "" "" false).2.2.1
      (.cons "Rate" true "" (.floatV 32 0) .nil)
      (.cons "Rate" true "" (.floatV 32 8) .nil) "" [0] "rate" 32 0 "1.5"
      rfl rfl rfl⟩

/-- C7 counterexample: the mixed-case token "tRuE" on a boolean field is
not parsed; LoadConfig fails with the coercion error. -/
theorem C7_counterexample :
    LoadConfig idUnmarshal noDuration noFloat (envSingle "FLAG" "tRuE")
      ⟨some (.bytes "doc"), none, "", "",
       .ptr (.structV (.cons "Flag" true "flag" (.boolV false) .nil)), false, false, false⟩ =
      .error (.applyEnvErr (.setField "flag" (.parseBoolErr "tRuE"))) := rfl

/-- C7 amended: boolean environment values are parsed with the exact
strconv.ParseBool token set: 1, t, T, TRUE, true, True are true; 0, f, F,
FALSE, false, False are false; in a successful walk a matched boolean
leaf holds the parse result, and any other token on a first-field boolean
leaf aborts with the coercion error naming the field's path. -/
theorem C7_bool_coercion (env : String → Option String) (pd : String → Option Int) (fo : FloatOps)
    ( envPre delim : String) (nd : Bool) :
    (∀ fs fs' path idxs fp b s,
        walkFields env pd fo envPre delim nd path fs = .ok fs' →
        visitedLeafPath fs idxs path = some (fp, .boolV b) →
        findEnvValue env envPre delim fp nd = some s →
        ∃ b', goParseBool s = some b' ∧ valueAtIdx fs' idxs = some (.boolV b')) ∧
    (∀ s, goParseBool s = some true ↔
      (s = "1" ∨ s = "t" ∨ s = "T" ∨ s = "TRUE" ∨ s = "true" ∨ s = "True")) ∧
    (∀ s, goParseBool s = some false ↔
      (s = "0" ∨ s = "f" ∨ s = "F" ∨ s = "FALSE" ∨ s = "false" ∨ s = "False")) ∧
    (∀ path name tag b rest s, tag ≠ "-" →
        findEnvValue env envPre delim
          (extendPath path (getStructPath name (stripTagOptions tag))) nd = some s →
        goParseBool s = none →
        walkFields env pd fo envPre delim nd path (.cons name true tag (.boolV b) rest) =
          .error (.setField (extendPath path (getStructPath name (stripTagOptions tag)))
            (.parseBoolErr s))) := by
  refine ⟨?_, ?_, ?_, ?_⟩
  · intro fs fs' path idxs fp b s hw hv hfind
    obtain ⟨v', hval, hdisj⟩ := walk_visited_leaf env pd fo envPre delim nd (sizeOf fs)
      fs le_rfl path fs' idxs fp (.boolV b) hw hv (fun _ h => GoValue.noConfusion h)
    rcases hdisj with ⟨hmiss, _⟩ | ⟨s', hs', hset'⟩
    · rw [hfind] at hmiss; cases hmiss
    · rw [hfind] at hs'
      injection hs' with hs'
      subst hs'
      simp only [setFieldValue] at hset'
      cases hp : goParseBool s with
      | none => simp only [hp] at hset'; exact Except.noConfusion hset'
      | some b' =>
        simp only [hp] at hset'
        injection hset' with h
        exact ⟨b', rfl, by rw [hval, ← h]⟩
  · intro s
    unfold goParseBool
    split_ifs with h1 h2
    · exact iff_of_true rfl h1
    · exact iff_of_false (by simp) h1
    · exact iff_of_false (by simp) h1
  · intro s
    unfold goParseBool
    split_ifs with h1 h2
    · refine iff_of_false (by simp) ?_
      rcases h1 with rfl | rfl | rfl | rfl | rfl | rfl <;> decide
    · exact iff_of_true rfl h2
    · exact iff_of_false (by simp) h2
  · intro path name tag b rest s htag hfind hparse
    exact walk_head_set_error htag (fun _ h => GoValue.noConfusion h) hfind
      (by simp [setFieldValue, hparse])

/-- C7 witness: the amended behaviour at the concrete accepted token "1"
and the concrete first-field rejection of "tRuE". -/
theorem C7_witness :
    (∃ b', goParseBool "1" = some b' ∧
      valueAtIdx (.cons "Flag" true "flag" (.boolV true) .nil) [0] =
        some (.boolV b')) ∧
    walkFields (envSingle "FLAG" "tRuE") noDuration noFloat "" "" false ""
      (.cons "Flag" true "flag" (.boolV false) .nil) =
      .error (.setField "flag" (.parseBoolErr "tRuE")) :=
  ⟨(C7_bool_coercion (envSingle "FLAG" "1") noDuration noFloat "" "" false).1
      (.cons "Flag" true "flag" (.boolV false) .nil)
      (.cons "Flag" true "flag" (.boolV true) .nil) "" [0] "flag" false "1"
      rfl rfl rfl,
    (C7_bool_coercion (envSingle "FLAG" "tRuE") noDuration noFloat "" "" false).2.2.2
      "" "Flag" "flag" false .nil "tRuE" (by decide) rfl rfl⟩

/-- C8: in any successful walk, every unexported field and every field
tagged "-" is left untouched at any nesting depth, and every visited
(exported, untagged-skip) leaf field participates: its final value is
determined by the environment lookup of its derived key. -/
theorem C8_field_participation (env : String → Option String) (pd : String → Option Int) (fo : FloatOps)
    ( envPre delim : String) (nd : Bool) :
    (∀ fs fs' path idxs v,
        walkFields env pd fo envPre delim nd path fs = .ok fs' →
        skippedFieldAt fs idxs = some v →
        valueAtIdx fs' idxs = some v) ∧
    (∀ fs fs' path idxs fp v,
        walkFields env pd fo envPre delim nd path fs = .ok fs' →
        visitedLeafPath fs idxs path = some (fp, v) →
        (∀ inner, v ≠ GoValue.structV inner) →
        ∃ v', valueAtIdx fs' idxs = some v' ∧
          ((findEnvValue env envPre delim fp nd = none ∧ v' = v) ∨
            ∃ s, findEnvValue env envPre delim fp nd = some s ∧
              setFieldValue pd fo v s = .ok v')) := by
  constructor
  · intro fs fs' path idxs v hw hv
    exact walk_skipped_frame env pd fo envPre delim nd (sizeOf fs) fs le_rfl
      path fs' idxs v hw hv
  · intro fs fs' path idxs fp v hw hv hleaf
    exact walk_visited_leaf env pd fo envPre delim nd (sizeOf fs) fs le_rfl
      path fs' idxs fp v hw hv hleaf

/-- C8 witness: an unexported integer field is untouched even though a
matching-named environment variable holds an unparseable value. -/
theorem C8_witness :
    valueAtIdx (.cons "secret" false "" (.intV 64 7) .nil) [0] =
      some (.intV 64 7) :=
  (C8_field_participation (envSingle "SECRET" "notanumber") noDuration noFloat "" "" false).1
    (.cons "secret" false "" (.intV 64 7) .nil)
    (.cons "secret" false "" (.intV 64 7) .nil) "" [0] (.intV 64 7) rfl rfl

/-- C9: LoadConfig is deterministic: identical decoder, duration parser,
environment snapshot and options (documents, flags and fresh target
included) produce equal results; the embedding has no other state. -/
theorem C9_deterministic (um : String → GoValue → Except String GoValue)
    (pd : String → Option Int) (fo : FloatOps) (env : String → Option String)
    (o1 o2 : LoaderOptions) (h : o1 = o2) :
    LoadConfig um pd fo env o1 = LoadConfig um pd fo env o2 := by rw [h]

/-- C9 witness: two base-only loads with identical bytes and fresh equal
targets agree. -/
theorem C9_witness :
    LoadConfig idUnmarshal noDuration noFloat noEnv
      ⟨some (.bytes "doc"), none, "", "",
       .ptr (.structV (.cons "A" true "" (.strV "b") .nil)), false, false, false⟩ =
    LoadConfig idUnmarshal noDuration noFloat noEnv
      ⟨some (.bytes "doc"), none, "", "",
       .ptr (.structV (.cons "A" true "" (.strV "b") .nil)), false, false, false⟩ :=
  C9_deterministic idUnmarshal noDuration noFloat noEnv
    ⟨some (.bytes "doc"), none, "", "",
     .ptr (.structV (.cons "A" true "" (.strV "b") .nil)), false, false, false⟩
    ⟨some (.bytes "doc"), none, "", "",
     .ptr (.structV (.cons "A" true "" (.strV "b") .nil)), false, false, false⟩
    rfl

/-- C10: a pointer-to-struct field is a leaf for the walker: a successful
walk never modifies it or anything behind it; if its derived key is
present in the environment the walk cannot succeed, a first-field
occurrence aborts with the unsupported-field-type error naming the
field's path, and the whole LoadConfig call fails. -/
theorem C10_ptr_field_is_leaf (env : String → Option String) (pd : String → Option Int) (fo : FloatOps)
    ( envPre delim : String) (nd : Bool) :
    (∀ fs fs' path idxs fp tn inner,
        walkFields env pd fo envPre delim nd path fs = .ok fs' →
        visitedLeafPath fs idxs path = some (fp, .ptrV tn inner) →
        valueAtIdx fs' idxs = some (.ptrV tn inner)) ∧
    (∀ fs path idxs fp tn inner s,
        visitedLeafPath fs idxs path = some (fp, .ptrV tn inner) →
        findEnvValue env envPre delim fp nd = some s →
        ∀ fs', walkFields env pd fo envPre delim nd path fs ≠ .ok fs') ∧
    (∀ path name tag tn inner rest s, tag ≠ "-" →
        findEnvValue env envPre delim
          (extendPath path (getStructPath name (stripTagOptions tag))) nd = some s →
        walkFields env pd fo envPre delim nd path (.cons name true tag (.ptrV tn inner) rest) =
          .error (.setField (extendPath path (getStructPath name (stripTagOptions tag)))
            (.unsupportedType tn))) ∧
    (∀ um bs ls fs0 fs2 idxs fp tn inner s fl dk,
        afterDocs um bs ls (.structV fs0) = .ok (.structV fs2) →
        visitedLeafPath fs2 idxs "" = some (fp, .ptrV tn inner) →
        findEnvValue env envPre delim fp nd = some s →
        ∀ final, LoadConfig um pd fo env
          ⟨some bs, ls, envPre, delim, .ptr (.structV fs0), nd, fl, dk⟩ ≠ .ok final) := by
  have hnotok : ∀ fs path idxs fp tn inner s fs',
      visitedLeafPath fs idxs path = some (fp, .ptrV tn inner) →
      findEnvValue env envPre delim fp nd = some s →
      walkFields env pd fo envPre delim nd path fs = .ok fs' → False := by
    intro fs path idxs fp tn inner s fs' hv hfind hw
    obtain ⟨v', _, hdisj⟩ := walk_visited_leaf env pd fo envPre delim nd (sizeOf fs)
      fs le_rfl path fs' idxs fp (.ptrV tn inner) hw hv (fun _ h => GoValue.noConfusion h)
    rcases hdisj with ⟨hmiss, _⟩ | ⟨s', _, hset'⟩
    · rw [hfind] at hmiss; cases hmiss
    · simp [setFieldValue] at hset'
  refine ⟨?_, ?_, ?_, ?_⟩
  · intro fs fs' path idxs fp tn inner hw hv
    obtain ⟨v', hval, hdisj⟩ := walk_visited_leaf env pd fo envPre delim nd (sizeOf fs)
      fs le_rfl path fs' idxs fp (.ptrV tn inner) hw hv (fun _ h => GoValue.noConfusion h)
    rcases hdisj with ⟨_, rfl⟩ | ⟨s', _, hset'⟩
    · exact hval
    · simp [setFieldValue] at hset'
  · intro fs path idxs fp tn inner s hv hfind fs' hw
    exact hnotok fs path idxs fp tn inner s fs' hv hfind hw
  · intro path name tag tn inner rest s htag hfind
    exact walk_head_set_error htag (fun _ h => GoValue.noConfusion h) hfind
      (by simp [setFieldValue, GoValue.typeName])
  · intro um bs ls fs0 fs2 idxs fp tn inner s fl dk hdocs hv hfind final hload
    have hvalid : ¬( envPre ≠ "" ∧ delim = "") := by
      intro hc
      simp [LoadConfig, hc] at hload
    rw [LoadConfig_steps um pd fo env bs ls envPre delim fs0 nd fl dk hvalid] at hload
    simp only [hdocs] at hload
    rw [applyEnvStep_structV] at hload
    cases hw : walkFields env pd fo envPre delim nd "" fs2 with
    | error e => simp [hw] at hload
    | ok fs' => exact hnotok fs2 "" idxs fp tn inner s fs' hv hfind hw

/-- C10 witness: a concrete pointer-to-struct field with a matching
environment variable aborts the walk with the unsupported-type error
naming the field's path. -/
theorem C10_witness :
    walkFields (envSingle "SUB" "x") noDuration noFloat "" "" false ""
      (.cons "Sub" true "" (.ptrV "*main.Sub" (.structV .nil)) .nil) =
      .error (.setField "sub" (.unsupportedType "*main.Sub")) :=
  (C10_ptr_field_is_leaf (envSingle "SUB" "x") noDuration noFloat "" "" false).2.2.1
    "" "Sub" "" "*main.Sub" (.structV .nil) .nil "x" (by decide) rfl

end Yamlenv
